import Mathlib

/-!
# Verification of the Excel-agent view-state pipeline

Shallow embedding of the workbook session store and view projection
implemented in `src/app/page.tsx` (the `ExcelAgent` component): the
zustand store (`useAgentStore`), the derivation layer (`useAgent`:
`visibleRows`, `columnKeys`, `selectedColumnIndices`, `rowsForExport`),
the helpers `buildColumnKey` / `normalizeForSearch`, and the export path
(`handleExport` / `downloadWorkbook`).

Modelling choices:
* A JS `Record<string, T>` is modelled as a function `String → Option T`
  (absent key ↦ `none`); truthy reads of `boolean | undefined` go through
  `readBool`.
* A spreadsheet cell (`string | number | boolean | null | undefined`) is
  the inductive `Cell`; `null` and `undefined` behave identically in every
  operation the component performs on cells (`?? ""`, `String(… ?? "")`),
  so one constructor `Cell.null` covers both.  JS numbers appearing in the
  claims are integers, so `Cell.num` carries an `Int` and is rendered with
  decimal notation, matching `String(n)` on integral values.
* `toLocaleLowerCase("fa")` followed by `.normalize("NFKD")` is host
  (ICU) behaviour, not code of this repository; it is abstracted as a
  parameter `nf : String → String` threaded through the projection.
* JS `Array.prototype.at` (negative indices address from the end) is
  modelled by `jsAt`; `arr[i]` by `List.get?` / `List.getD`.
-/

/-- A spreadsheet cell value: `string | number | boolean | null | undefined`. -/
inductive Cell where
  | str (s : String)
  | num (n : Int)
  | bool (b : Bool)
  | null
deriving DecidableEq, Repr

/-- JS `String(value ?? "")` on a cell: `null`/`undefined` become `""`,
numbers render in decimal, booleans as `true`/`false`. -/
def cellToString : Cell → String
  | Cell.str s => s
  | Cell.num n => toString n
  | Cell.bool b => if b then "true" else "false"
  | Cell.null => ""

/-- `RawSheetData` from `page.tsx`: a sheet name, its header row, and its rows. -/
structure RawSheetData where
  name : String
  headers : List String
  rows : List (List Cell)
deriving DecidableEq, Repr

/-- The empty JS record. -/
def emptyRec {α : Type} : String → Option α := fun _ => none

/-- JS `{ ...m, [k]: v }`: record update at one key. -/
def recInsert {α : Type} (k : String) (v : α) (m : String → Option α) :
    String → Option α :=
  fun q => if q = k then some v else m q

/-- Truthy read of a `Record<string, boolean>` entry: an absent key is falsy. -/
def readBool (m : String → Option Bool) (k : String) : Bool :=
  (m k).getD false

/-- The data fields of the zustand `AgentState` (the actions act on this). -/
structure AgentState where
  workbookName : String
  sheets : List RawSheetData
  activeSheetIndex : Int
  selectedColumns : String → Option Bool
  columnAliases : String → Option String
  searchTerm : String

/-- The initial store state from the `create` initializer. -/
def initialState : AgentState :=
  { workbookName := ""
    sheets := []
    activeSheetIndex := 0
    selectedColumns := emptyRec
    columnAliases := emptyRec
    searchTerm := "" }

/-- JS `String.prototype.trim`: drop leading and trailing whitespace.
(Defined over the char list rather than through `String.trim` so that it
reduces structurally; the two agree on the whitespace notion used here.) -/
def jsTrim (s : String) : String :=
  ⟨((s.data.dropWhile Char.isWhitespace).reverse.dropWhile
      Char.isWhitespace).reverse⟩

/-- JS `Array.prototype.at`: a negative index addresses from the end. -/
def jsAt {α : Type} (l : List α) (i : Int) : Option α :=
  if 0 ≤ i then l.get? i.toNat
  else if 0 ≤ i + l.length then l.get? (i + l.length).toNat
  else none

/-- `buildColumnKey` from `page.tsx`:
`header?.trim() ? `${header.trim()}::${index}` : `ستون-${index + 1}``.
The headers handed to it by `columnKeys` / the store are always defined
strings, so the `string | undefined` parameter is modelled as `String`. -/
def buildColumnKey (header : String) (index : Nat) : String :=
  if jsTrim header ≠ "" then jsTrim header ++ "::" ++ Nat.repr index
  else "ستون-" ++ Nat.repr (index + 1)

/-- The Selection Map rebuilt from a header row: each header's column key
mapped to `true` (the `headers.forEach` loops in `setWorkbook` and
`setActiveSheetIndex`). -/
def mkAllSelected (headers : List String) : String → Option Bool :=
  headers.enum.foldl (fun m p => recInsert (buildColumnKey p.2 p.1) true m) emptyRec

/-- `setWorkbook`: replaces the workbook, activates sheet 0, selects all of
sheet 0's columns, clears aliases and the search term.  (The
`?? sheets.at(0)?.rows.at(0)?.map(String)` arm of the source is dead for the
typed payload: `headers` is never `undefined` when the sheet exists, so the
fallback only fires when there is no sheet at index 0, where it also yields
`[]`.) -/
def setWorkbook (workbookName : String) (sheets : List RawSheetData)
    (s : AgentState) : AgentState :=
  let headers := match jsAt sheets 0 with
    | some sh => sh.headers
    | none => []
  { s with
    workbookName := workbookName
    sheets := sheets
    activeSheetIndex := 0
    selectedColumns := mkAllSelected headers
    columnAliases := emptyRec
    searchTerm := "" }

/-- `setActiveSheetIndex`: if `sheets.at(index)` is undefined the action
returns the empty partial update (state unchanged); otherwise it switches
the active sheet, reselects all of its columns, and clears aliases and the
search term. -/
def setActiveSheetIndex (index : Int) (s : AgentState) : AgentState :=
  match jsAt s.sheets index with
  | none => s
  | some sheet =>
      { s with
        activeSheetIndex := index
        selectedColumns := mkAllSelected sheet.headers
        columnAliases := emptyRec
        searchTerm := "" }

/-- `toggleColumn`: `{ ...selectedColumns, [k]: !selectedColumns[k] }`. -/
def toggleColumn (columnKey : String) (s : AgentState) : AgentState :=
  { s with
    selectedColumns :=
      recInsert columnKey (!(readBool s.selectedColumns columnKey))
        s.selectedColumns }

/-- `setColumnAlias`: `{ ...columnAliases, [k]: alias }`. -/
def setColumnAlias (columnKey aliasText : String) (s : AgentState) : AgentState :=
  { s with columnAliases := recInsert columnKey aliasText s.columnAliases }

/-- `setSearchTerm`: replaces the search term verbatim. -/
def setSearchTerm (term : String) (s : AgentState) : AgentState :=
  { s with searchTerm := term }

/-- `reset`: back to the initial store state. -/
def resetState (s : AgentState) : AgentState :=
  { s with
    workbookName := ""
    sheets := []
    activeSheetIndex := 0
    selectedColumns := emptyRec
    columnAliases := emptyRec
    searchTerm := "" }

/-- `store.sheets.at(store.activeSheetIndex)` — the Active Sheet. -/
def activeSheet (s : AgentState) : Option RawSheetData :=
  jsAt s.sheets s.activeSheetIndex

/-- `sheet?.headers ?? []`. -/
def headersOf (s : AgentState) : List String :=
  match activeSheet s with
  | some sheet => sheet.headers
  | none => []

/-- Whether `pat` occurs as a contiguous sublist of `l`. -/
def listInfixCheck (pat : List Char) : List Char → Bool
  | [] => pat.isEmpty
  | c :: rest => pat.isPrefixOf (c :: rest) || listInfixCheck pat rest

/-- JS `String.prototype.includes`: substring containment (code points). -/
def strContains (s pat : String) : Bool :=
  listInfixCheck pat.data s.data

/-- `normalizeForSearch` with the host locale pipeline abstracted as `nf`:
`nf (String(value ?? ""))`. -/
def normalizeForSearch (nf : String → String) (c : Cell) : String :=
  nf (cellToString c)

/-- `visibleRows`: all rows when the trimmed search term is empty, else the
rows having some cell whose normalized form contains the normalized term. -/
def visibleRows (nf : String → String) (s : AgentState) : List (List Cell) :=
  match activeSheet s with
  | none => []
  | some sheet =>
      if jsTrim s.searchTerm = "" then sheet.rows
      else
        sheet.rows.filter fun row =>
          row.any fun cell =>
            strContains (normalizeForSearch nf cell) (nf s.searchTerm)

/-- `columnKeys = headers.map(buildColumnKey)` (JS `map` passes the index). -/
def columnKeysOf (headers : List String) : List String :=
  headers.enum.map fun p => buildColumnKey p.2 p.1

/-- The Column Keys of the active sheet. -/
def columnKeys (s : AgentState) : List String :=
  columnKeysOf (headersOf s)

/-- `selectedColumnIndices`: positions whose column key reads `true` in the
Selection Map, in ascending positional order. -/
def selectedColumnIndices (s : AgentState) : List Nat :=
  ((columnKeys s).enum.filter fun p => readBool s.selectedColumns p.2).map
    fun p => p.1

/-- One header-row entry of the export matrix:
`columnAliases[key]?.trim() || headers[idx] || `ستون ${idx + 1}``. -/
def headerEntry (s : AgentState) (idx : Nat) : String :=
  let aliasTrim :=
    match s.columnAliases ((columnKeys s).getD idx "") with
    | some a => jsTrim a
    | none => ""
  if aliasTrim ≠ "" then aliasTrim
  else if (headersOf s).getD idx "" ≠ "" then (headersOf s).getD idx ""
  else "ستون " ++ Nat.repr (idx + 1)

/-- One data-row entry of the export matrix: `row[idx] ?? ""`. -/
def exportCell (row : List Cell) (idx : Nat) : Cell :=
  match row.get? idx with
  | some Cell.null => Cell.str ""
  | some c => c
  | none => Cell.str ""

/-- `rowsForExport`: empty without an active sheet or selected columns;
otherwise the header row followed by the projected visible rows. -/
def rowsForExport (nf : String → String) (s : AgentState) : List (List Cell) :=
  match activeSheet s with
  | none => []
  | some _ =>
      if selectedColumnIndices s = [] then []
      else
        ((selectedColumnIndices s).map fun idx => Cell.str (headerEntry s idx)) ::
          (visibleRows nf s).map fun row =>
            (selectedColumnIndices s).map (exportCell row)

/-- JS `String.prototype.endsWith` (code points). -/
def jsEndsWith (s suffix : String) : Bool :=
  suffix.data.isSuffixOf s.data

/-- The filename `downloadWorkbook` hands to `XLSX.writeFile`:
`filename.endsWith(".xlsx") ? filename : `${filename}.xlsx``. -/
def downloadWorkbookFilename (filename : String) : String :=
  if jsEndsWith filename ".xlsx" then filename else filename ++ ".xlsx"

/-- The empty-export error message set by `handleExport`. -/
def exportErrorMessage : String :=
  "ستونی برای خروجی انتخاب نشده است یا داده‌ای برای ذخیره وجود ندارد."

/-- What an export attempt does: abort with a surfaced message, or invoke
the workbook writer with a row matrix and a filename. -/
inductive ExportOutcome where
  | aborted (message : String)
  | written (rows : List (List Cell)) (filename : String)
deriving DecidableEq, Repr

/-- `handleExport`: abort with the error message when the export matrix is
empty, else hand the matrix and the suffixed filename to the writer. -/
def handleExport (nf : String → String) (s : AgentState)
    (exportFilename : String) : ExportOutcome :=
  if rowsForExport nf s = [] then ExportOutcome.aborted exportErrorMessage
  else ExportOutcome.written (rowsForExport nf s)
    (downloadWorkbookFilename exportFilename)

/-!
## Decimal rendering facts

`buildColumnKey` embeds the column position into the key through `Nat.repr`
(JS template-literal interpolation of a number).  The distinctness invariant
of column keys rests on: decimal renderings are injective, consist of digit
characters only, and hence never contain `':'`.
-/

lemma toDigitsCore_eq_digits :
    ∀ (fuel n : Nat) (acc : List Char), n ≠ 0 → n < fuel →
      Nat.toDigitsCore 10 fuel n acc =
        ((Nat.digits 10 n).map Nat.digitChar).reverse ++ acc := by
  intro fuel
  induction fuel with
  | zero => intro n acc hn h; omega
  | succ f ih =>
    intro n acc hn h
    rw [Nat.digits_def' (by norm_num : (1 : Nat) < 10) (Nat.pos_of_ne_zero hn)]
    show (if n / 10 = 0 then Nat.digitChar (n % 10) :: acc
        else Nat.toDigitsCore 10 f (n / 10) (Nat.digitChar (n % 10) :: acc)) = _
    by_cases h0 : n / 10 = 0
    · simp [h0]
    · have hlt : n / 10 < f := by
        have := Nat.div_lt_self (Nat.pos_of_ne_zero hn) (by norm_num : 1 < 10)
        omega
      rw [if_neg h0, ih (n / 10) (Nat.digitChar (n % 10) :: acc) h0 hlt]
      simp

lemma toDigits_eq_digits_reverse (n : Nat) (hn : n ≠ 0) :
    Nat.toDigits 10 n = ((Nat.digits 10 n).map Nat.digitChar).reverse := by
  have := toDigitsCore_eq_digits (n + 1) n [] hn (Nat.lt_succ_self n)
  simpa [Nat.toDigits] using this

lemma repr_data (n : Nat) : (Nat.repr n).data = Nat.toDigits 10 n := rfl

lemma digitChar_isDigit_of_lt : ∀ d < 10, (Nat.digitChar d).isDigit = true := by
  decide

lemma digitChar_injOn :
    ∀ d1 < 10, ∀ d2 < 10, Nat.digitChar d1 = Nat.digitChar d2 → d1 = d2 := by
  decide

lemma repr_data_all_digits (n : Nat) :
    ∀ c ∈ (Nat.repr n).data, c.isDigit = true := by
  rw [repr_data]
  by_cases hn : n = 0
  · subst hn; decide
  · rw [toDigits_eq_digits_reverse n hn]
    intro c hc
    rw [List.mem_reverse, List.mem_map] at hc
    obtain ⟨d, hd, rfl⟩ := hc
    exact digitChar_isDigit_of_lt d (Nat.digits_lt_base (by norm_num) hd)

lemma map_digitChar_inj :
    ∀ (l1 l2 : List Nat), (∀ d ∈ l1, d < 10) → (∀ d ∈ l2, d < 10) →
      l1.map Nat.digitChar = l2.map Nat.digitChar → l1 = l2 := by
  intro l1
  induction l1 with
  | nil => intro l2 _ _ h; cases l2 <;> simp_all
  | cons a l ih =>
    intro l2 h1 h2 h
    cases l2 with
    | nil => simp at h
    | cons b m =>
      simp only [List.map_cons, List.cons.injEq] at h
      have ha : a = b :=
        digitChar_injOn a (h1 a (by simp)) b (h2 b (by simp)) h.1
      have hm := ih m (fun d hd => h1 d (by simp [hd]))
        (fun d hd => h2 d (by simp [hd])) h.2
      simp [ha, hm]

theorem nat_repr_injective : Function.Injective Nat.repr := by
  intro m n h
  have hdata : Nat.toDigits 10 m = Nat.toDigits 10 n := by
    rw [← repr_data, ← repr_data, h]
  by_cases hm : m = 0 <;> by_cases hn : n = 0
  · omega
  · exfalso
    subst hm
    rw [show Nat.toDigits 10 0 = ['0'] from rfl,
      toDigits_eq_digits_reverse n hn] at hdata
    have hrev : (Nat.digits 10 n).map Nat.digitChar = ['0'] := by
      have := congrArg List.reverse hdata
      simpa using this.symm
    have hdig : Nat.digits 10 n = [0] := by
      apply map_digitChar_inj _ _
        (fun d hd => Nat.digits_lt_base (by norm_num) hd) (by decide)
      simpa using hrev
    have := Nat.getLast_digit_ne_zero 10 hn
    simp [hdig] at this
  · exfalso
    subst hn
    rw [show Nat.toDigits 10 0 = ['0'] from rfl,
      toDigits_eq_digits_reverse m hm] at hdata
    have hrev : (Nat.digits 10 m).map Nat.digitChar = ['0'] := by
      have := congrArg List.reverse hdata
      simpa using this
    have hdig : Nat.digits 10 m = [0] := by
      apply map_digitChar_inj _ _
        (fun d hd => Nat.digits_lt_base (by norm_num) hd) (by decide)
      simpa using hrev
    have := Nat.getLast_digit_ne_zero 10 hm
    simp [hdig] at this
  · rw [toDigits_eq_digits_reverse m hm, toDigits_eq_digits_reverse n hn] at hdata
    have hmap := congrArg List.reverse hdata
    simp only [List.reverse_reverse] at hmap
    have hdig := map_digitChar_inj _ _
      (fun d hd => Nat.digits_lt_base (by norm_num) hd)
      (fun d hd => Nat.digits_lt_base (by norm_num) hd) hmap
    have := congrArg (Nat.ofDigits 10) hdig
    simpa [Nat.ofDigits_digits] using this

/-!
## Column-key distinctness

A key built from a non-blank header has shape `trimmedHeader ++ "::" ++
decimal index`; a key built from a blank header has shape `"ستون-" ++
decimal (index + 1)` and contains no `':'`.  The embedded position can be
recovered from the key, so keys at distinct positions are distinct.
-/

lemma takeWhile_append_of_all {p : Char → Bool} :
    ∀ (l1 l2 : List Char), (∀ c ∈ l1, p c = true) →
      (l1 ++ l2).takeWhile p = l1 ++ l2.takeWhile p := by
  intro l1
  induction l1 with
  | nil => simp
  | cons a l ih =>
    intro l2 h
    have ha : p a = true := h a (by simp)
    simp [List.takeWhile_cons, ha, ih l2 (fun c hc => h c (by simp [hc]))]

/-- The maximal run of digit characters at the end of a char list. -/
def digitSuffix (l : List Char) : List Char :=
  (l.reverse.takeWhile Char.isDigit).reverse

lemma digitSuffix_of_colon_append (t d : List Char)
    (hd : ∀ c ∈ d, c.isDigit = true) :
    digitSuffix ((t ++ [':', ':']) ++ d) = d := by
  have hcolon : (':').isDigit = false := by decide
  have h1 : ((t ++ [':', ':']) ++ d).reverse
      = d.reverse ++ (':' :: ':' :: t.reverse) := by
    simp
  unfold digitSuffix
  rw [h1, takeWhile_append_of_all d.reverse _
    (fun c hc => hd c (List.mem_reverse.mp hc))]
  rw [List.takeWhile_cons, hcolon]
  simp

lemma colon_not_mem_repr (n : Nat) : ':' ∉ (Nat.repr n).data := by
  intro hmem
  have := repr_data_all_digits n ':' hmem
  exact absurd this (by decide)

lemma colon_not_mem_placeholder (n : Nat) :
    ':' ∉ ("ستون-" ++ Nat.repr n).data := by
  rw [String.data_append, List.mem_append]
  rintro (hc | hc)
  · revert hc; decide
  · exact colon_not_mem_repr n hc

theorem buildColumnKey_index_inj (h1 h2 : String) (i j : Nat)
    (heq : buildColumnKey h1 i = buildColumnKey h2 j) : i = j := by
  unfold buildColumnKey at heq
  by_cases e1 : jsTrim h1 ≠ "" <;> by_cases e2 : jsTrim h2 ≠ ""
  · rw [if_pos e1, if_pos e2] at heq
    have hdata : ((jsTrim h1).data ++ [':', ':']) ++ (Nat.repr i).data
        = ((jsTrim h2).data ++ [':', ':']) ++ (Nat.repr j).data := by
      have := congrArg String.data heq
      simpa only [String.data_append, List.append_assoc] using this
    have hrepr : (Nat.repr i).data = (Nat.repr j).data := by
      rw [← digitSuffix_of_colon_append (jsTrim h1).data _ (repr_data_all_digits i),
        ← digitSuffix_of_colon_append (jsTrim h2).data _ (repr_data_all_digits j)]
      have ha : ((jsTrim h1).data ++ [':', ':']) ++ (Nat.repr i).data
          = ((jsTrim h2).data ++ [':', ':']) ++ (Nat.repr j).data := hdata
      rw [ha]
    exact nat_repr_injective (String.ext hrepr)
  · exfalso
    rw [if_pos e1, if_neg e2] at heq
    have hmem : ':' ∈ (jsTrim h1 ++ "::" ++ Nat.repr i).data := by
      simp [String.data_append]
    rw [heq] at hmem
    exact colon_not_mem_placeholder (j + 1) hmem
  · exfalso
    rw [if_neg e1, if_pos e2] at heq
    have hmem : ':' ∈ (jsTrim h2 ++ "::" ++ Nat.repr j).data := by
      simp [String.data_append]
    rw [← heq] at hmem
    exact colon_not_mem_placeholder (i + 1) hmem
  · rw [if_neg e1, if_neg e2] at heq
    have hdata := congrArg String.data heq
    rw [String.data_append, String.data_append] at hdata
    have hrepr := List.append_cancel_left hdata
    have := nat_repr_injective (String.ext hrepr)
    omega

theorem columnKeysOf_pairwise_ne (headers : List String) :
    (columnKeysOf headers).Pairwise (· ≠ ·) := by
  unfold columnKeysOf
  rw [List.pairwise_map]
  have h1 : (headers.enum.map Prod.fst).Nodup := List.nodup_enum_map_fst headers
  unfold List.Nodup at h1
  rw [List.pairwise_map] at h1
  exact h1.imp fun hne heq => hne (buildColumnKey_index_inj _ _ _ _ heq)

/-! ## Record, `jsAt`, Selection-Map and projection helper lemmas -/

lemma recInsert_self {α : Type} (m : String → Option α) (k : String) (v : α) :
    recInsert k v m k = some v := by
  simp [recInsert]

lemma recInsert_other {α : Type} (m : String → Option α) (k q : String) (v : α)
    (h : q ≠ k) : recInsert k v m q = m q := by
  simp [recInsert, h]

lemma jsAt_natCast {α : Type} (l : List α) (n : Nat) :
    jsAt l (n : Int) = l.get? n := by
  unfold jsAt
  rw [if_pos (by exact_mod_cast Nat.zero_le n)]
  simp

lemma jsAt_none_of_out_of_range {α : Type} (l : List α) (i : Int)
    (h : (l.length : Int) ≤ i ∨ i + l.length < 0) : jsAt l i = none := by
  unfold jsAt
  rcases h with h | h
  · rw [if_pos (by omega)]
    exact List.get?_eq_none.mpr (by omega)
  · rw [if_neg (by omega), if_neg (by omega)]

lemma foldl_recInsert_true_eq_some :
    ∀ (ps : List (Nat × String)) (m0 : String → Option Bool) (k : String),
      ((∃ p ∈ ps, buildColumnKey p.2 p.1 = k) ∨ m0 k = some true) →
      (ps.foldl (fun m p => recInsert (buildColumnKey p.2 p.1) true m) m0) k
        = some true := by
  intro ps
  induction ps with
  | nil =>
    intro m0 k h
    rcases h with ⟨p, hp, _⟩ | h
    · simp at hp
    · simpa using h
  | cons q ps ih =>
    intro m0 k h
    simp only [List.foldl_cons]
    apply ih
    by_cases hk : k = buildColumnKey q.2 q.1
    · right
      rw [hk, recInsert_self]
    · rcases h with ⟨p, hp, hpk⟩ | h
      · rcases List.mem_cons.mp hp with rfl | hp'
        · exact absurd hpk.symm hk
        · exact Or.inl ⟨p, hp', hpk⟩
      · right
        rw [recInsert_other _ _ _ _ hk]
        exact h

lemma mkAllSelected_read (headers : List String) (i : Nat)
    (h : i < headers.length) :
    readBool (mkAllSelected headers) (buildColumnKey (headers.get ⟨i, h⟩) i)
      = true := by
  unfold readBool mkAllSelected
  rw [foldl_recInsert_true_eq_some headers.enum emptyRec _
    (Or.inl ⟨(i, headers.get ⟨i, h⟩), ?_, rfl⟩)]
  · rfl
  · rw [List.mem_enum_iff_getElem?]
    simp [List.getElem?_eq_getElem h]

lemma selectedColumnIndices_pairwise_lt (s : AgentState) :
    (selectedColumnIndices s).Pairwise (· < ·) := by
  unfold selectedColumnIndices
  rw [List.pairwise_map]
  apply List.Pairwise.filter
  have h1 : ((columnKeys s).enum.map Prod.fst).Pairwise (· < ·) := by
    rw [List.enum_map_fst]
    exact List.pairwise_lt_range _
  rw [List.pairwise_map] at h1
  exact h1

/-- The header-entry rule in the words of the spec, fallback part: the
original header text if non-empty, else a 1-based `ستون N` ("Column N")
placeholder. -/
def specHeaderFallback (headers : List String) (idx : Nat) : String :=
  match headers.get? idx with
  | some h => if h ≠ "" then h else "ستون " ++ Nat.repr (idx + 1)
  | none => "ستون " ++ Nat.repr (idx + 1)

/-- The header-entry rule in the words of the spec: the trimmed alias if
non-empty after trimming, else `specHeaderFallback`. -/
def specHeaderEntry (aliases : String → Option String) (headers : List String)
    (key : String) (idx : Nat) : String :=
  match aliases key with
  | some a => if jsTrim a ≠ "" then jsTrim a else specHeaderFallback headers idx
  | none => specHeaderFallback headers idx

lemma headerEntry_eq_spec (s : AgentState) (idx : Nat) :
    headerEntry s idx =
      specHeaderEntry s.columnAliases (headersOf s)
        ((columnKeys s).getD idx "") idx := by
  unfold headerEntry specHeaderEntry specHeaderFallback
  rw [List.get?_eq_getElem?]
  cases halias : s.columnAliases ((columnKeys s).getD idx "") with
  | none =>
      cases hh : (headersOf s)[idx]? with
      | none => simp [halias, hh]
      | some h => by_cases h0 : h = "" <;> simp [halias, hh, h0]
  | some a =>
      by_cases ha : jsTrim a = ""
      · cases hh : (headersOf s)[idx]? with
        | none => simp [halias, ha, hh]
        | some h => by_cases h0 : h = "" <;> simp [halias, ha, hh, h0]
      · simp [halias, ha]

/-! ## Claim theorems -/

/-- C1: with an active sheet and at least one selected column index, the
export matrix is the header row (per selected index: trimmed non-empty
alias, else non-empty original header, else the 1-based locale placeholder)
followed by one row per visible row projected onto the selected indices in
ascending positional order with absent cells replaced by `""`; every row of
the matrix has length equal to the number of selected columns. -/
theorem claim_C1_export_matrix_shape (nf : String → String) (s : AgentState)
    (sheet : RawSheetData) (h1 : activeSheet s = some sheet)
    (h2 : selectedColumnIndices s ≠ []) :
    rowsForExport nf s =
      ((selectedColumnIndices s).map fun idx =>
          Cell.str (specHeaderEntry s.columnAliases (headersOf s)
            ((columnKeys s).getD idx "") idx)) ::
        ((visibleRows nf s).map fun row =>
          (selectedColumnIndices s).map (exportCell row))
    ∧ (selectedColumnIndices s).Pairwise (· < ·)
    ∧ ∀ r ∈ rowsForExport nf s, r.length = (selectedColumnIndices s).length := by
  have hmain : rowsForExport nf s =
      ((selectedColumnIndices s).map fun idx => Cell.str (headerEntry s idx)) ::
        ((visibleRows nf s).map fun row =>
          (selectedColumnIndices s).map (exportCell row)) := by
    simp only [rowsForExport, h1]
    rw [if_neg h2]
  refine ⟨?_, selectedColumnIndices_pairwise_lt s, ?_⟩
  · rw [hmain]
    simp only [headerEntry_eq_spec]
  · intro r hr
    rw [hmain] at hr
    rcases List.mem_cons.mp hr with rfl | hr'
    · simp
    · obtain ⟨row, _, rfl⟩ := List.mem_map.mp hr'
      simp

/-- C1 witness: the shape theorem applied to a concrete loaded workbook. -/
theorem claim_C1_witness :
    activeSheet (setWorkbook "wb"
        [⟨"S", ["Name", ""], [[Cell.str "Ali", Cell.num 5]]⟩] initialState)
      = some (RawSheetData.mk "S" ["Name", ""] [[Cell.str "Ali", Cell.num 5]])
    ∧ selectedColumnIndices (setWorkbook "wb"
        [⟨"S", ["Name", ""], [[Cell.str "Ali", Cell.num 5]]⟩] initialState) ≠ []
    ∧ (rowsForExport id (setWorkbook "wb"
        [⟨"S", ["Name", ""], [[Cell.str "Ali", Cell.num 5]]⟩] initialState) =
      ((selectedColumnIndices (setWorkbook "wb"
          [⟨"S", ["Name", ""], [[Cell.str "Ali", Cell.num 5]]⟩] initialState)).map
        fun idx =>
          Cell.str (specHeaderEntry (setWorkbook "wb"
              [⟨"S", ["Name", ""], [[Cell.str "Ali", Cell.num 5]]⟩]
              initialState).columnAliases
            (headersOf (setWorkbook "wb"
              [⟨"S", ["Name", ""], [[Cell.str "Ali", Cell.num 5]]⟩] initialState))
            ((columnKeys (setWorkbook "wb"
              [⟨"S", ["Name", ""], [[Cell.str "Ali", Cell.num 5]]⟩]
              initialState)).getD idx "") idx)) ::
        ((visibleRows id (setWorkbook "wb"
            [⟨"S", ["Name", ""], [[Cell.str "Ali", Cell.num 5]]⟩] initialState)).map
          fun row =>
            (selectedColumnIndices (setWorkbook "wb"
              [⟨"S", ["Name", ""], [[Cell.str "Ali", Cell.num 5]]⟩]
              initialState)).map (exportCell row))
    ∧ (selectedColumnIndices (setWorkbook "wb"
        [⟨"S", ["Name", ""], [[Cell.str "Ali", Cell.num 5]]⟩]
        initialState)).Pairwise (· < ·)
    ∧ ∀ r ∈ rowsForExport id (setWorkbook "wb"
        [⟨"S", ["Name", ""], [[Cell.str "Ali", Cell.num 5]]⟩] initialState),
        r.length = (selectedColumnIndices (setWorkbook "wb"
          [⟨"S", ["Name", ""], [[Cell.str "Ali", Cell.num 5]]⟩]
          initialState)).length) :=
  ⟨by decide, by decide,
    claim_C1_export_matrix_shape id
      (setWorkbook "wb" [⟨"S", ["Name", ""], [[Cell.str "Ali", Cell.num 5]]⟩]
        initialState)
      (RawSheetData.mk "S" ["Name", ""] [[Cell.str "Ali", Cell.num 5]])
      (by decide) (by decide)⟩

/-- C2: with an active sheet, a blank (after trimming) search term leaves
all rows visible in original order, and a non-blank term makes the visible
rows exactly the order-preserving filtered subsequence of rows having some
cell whose normalized form contains the normalized term as a substring. -/
theorem claim_C2_visible_rows_filter (nf : String → String) (s : AgentState)
    (sheet : RawSheetData) (h : activeSheet s = some sheet) :
    (jsTrim s.searchTerm = "" → visibleRows nf s = sheet.rows)
    ∧ (jsTrim s.searchTerm ≠ "" →
        visibleRows nf s = sheet.rows.filter (fun row =>
          row.any fun cell =>
            strContains (normalizeForSearch nf cell) (nf s.searchTerm))
        ∧ List.Sublist (visibleRows nf s) sheet.rows
        ∧ ∀ row, row ∈ visibleRows nf s ↔ row ∈ sheet.rows ∧
            (row.any fun cell =>
              strContains (normalizeForSearch nf cell) (nf s.searchTerm)) = true) := by
  constructor
  · intro ht
    simp [visibleRows, h, ht]
  · intro ht
    have hv : visibleRows nf s = sheet.rows.filter (fun row =>
        row.any fun cell =>
          strContains (normalizeForSearch nf cell) (nf s.searchTerm)) := by
      simp only [visibleRows, h]
      rw [if_neg ht]
    refine ⟨hv, ?_, ?_⟩
    · rw [hv]
      exact List.filter_sublist _
    · intro row
      rw [hv, List.mem_filter]

/-- C2 witness: the filter theorem applied to a concrete search. -/
theorem claim_C2_witness :
    activeSheet (setSearchTerm "Ali" (setWorkbook "wb"
        [⟨"S", ["Name"], [[Cell.str "Ali"], [Cell.str "Reza"]]⟩] initialState))
      = some (RawSheetData.mk "S" ["Name"] [[Cell.str "Ali"], [Cell.str "Reza"]])
    ∧ ((jsTrim (setSearchTerm "Ali" (setWorkbook "wb"
        [⟨"S", ["Name"], [[Cell.str "Ali"], [Cell.str "Reza"]]⟩]
        initialState)).searchTerm = "" →
      visibleRows id (setSearchTerm "Ali" (setWorkbook "wb"
        [⟨"S", ["Name"], [[Cell.str "Ali"], [Cell.str "Reza"]]⟩] initialState))
        = [[Cell.str "Ali"], [Cell.str "Reza"]])
    ∧ (jsTrim (setSearchTerm "Ali" (setWorkbook "wb"
        [⟨"S", ["Name"], [[Cell.str "Ali"], [Cell.str "Reza"]]⟩]
        initialState)).searchTerm ≠ "" →
      visibleRows id (setSearchTerm "Ali" (setWorkbook "wb"
        [⟨"S", ["Name"], [[Cell.str "Ali"], [Cell.str "Reza"]]⟩] initialState))
        = [[Cell.str "Ali"], [Cell.str "Reza"]].filter (fun row =>
            row.any fun cell =>
              strContains (normalizeForSearch id cell)
                (id (setSearchTerm "Ali" (setWorkbook "wb"
                  [⟨"S", ["Name"], [[Cell.str "Ali"], [Cell.str "Reza"]]⟩]
                  initialState)).searchTerm))
      ∧ List.Sublist (visibleRows id (setSearchTerm "Ali" (setWorkbook "wb"
          [⟨"S", ["Name"], [[Cell.str "Ali"], [Cell.str "Reza"]]⟩] initialState)))
          [[Cell.str "Ali"], [Cell.str "Reza"]]
      ∧ ∀ row, row ∈ visibleRows id (setSearchTerm "Ali" (setWorkbook "wb"
            [⟨"S", ["Name"], [[Cell.str "Ali"], [Cell.str "Reza"]]⟩] initialState))
          ↔ row ∈ [[Cell.str "Ali"], [Cell.str "Reza"]] ∧
            (row.any fun cell =>
              strContains (normalizeForSearch id cell)
                (id (setSearchTerm "Ali" (setWorkbook "wb"
                  [⟨"S", ["Name"], [[Cell.str "Ali"], [Cell.str "Reza"]]⟩]
                  initialState)).searchTerm)) = true)) :=
  ⟨by decide,
    claim_C2_visible_rows_filter id
      (setSearchTerm "Ali" (setWorkbook "wb"
        [⟨"S", ["Name"], [[Cell.str "Ali"], [Cell.str "Reza"]]⟩] initialState))
      (RawSheetData.mk "S" ["Name"] [[Cell.str "Ali"], [Cell.str "Reza"]])
      (by decide)⟩

/-- C3: switching to any in-range sheet index rebuilds the Selection Map to
select every column key of that sheet, empties the Alias Map, and clears
the search term — regardless of any prior per-column customization, so
nothing survives a switch away and back. -/
theorem claim_C3_sheet_switch_resets (s : AgentState) (j : Nat)
    (sheet : RawSheetData) (h : s.sheets.get? j = some sheet) :
    (setActiveSheetIndex (j : Int) s).activeSheetIndex = (j : Int)
    ∧ (setActiveSheetIndex (j : Int) s).selectedColumns
        = mkAllSelected sheet.headers
    ∧ (setActiveSheetIndex (j : Int) s).columnAliases = emptyRec
    ∧ (setActiveSheetIndex (j : Int) s).searchTerm = ""
    ∧ ∀ (i : Nat) (hi : i < sheet.headers.length),
        readBool (setActiveSheetIndex (j : Int) s).selectedColumns
          (buildColumnKey (sheet.headers.get ⟨i, hi⟩) i) = true := by
  have hat : jsAt s.sheets (j : Int) = some sheet := by
    rw [jsAt_natCast]
    exact h
  simp only [setActiveSheetIndex, hat]
  refine ⟨by trivial, by trivial, by trivial, by trivial,
    fun i hi => mkAllSelected_read sheet.headers i hi⟩

/-- C3 witness: switching to sheet 1 and back to sheet 0 resets the
customization applied to sheet 0 before leaving. -/
theorem claim_C3_witness :
    (setActiveSheetIndex (1 : Int) (setColumnAlias "A::0" "alpha"
        (toggleColumn "A::0" (setWorkbook "wb"
          [⟨"S0", ["A"], []⟩, ⟨"S1", ["B"], []⟩]
          initialState)))).sheets.get? 0 = some ⟨"S0", ["A"], []⟩
    ∧ ((setActiveSheetIndex ((0 : Nat) : Int) (setActiveSheetIndex (1 : Int)
          (setColumnAlias "A::0" ("alpha")
            (toggleColumn "A::0" (setWorkbook "wb"
              [⟨"S0", ["A"], []⟩, ⟨"S1", ["B"], []⟩]
              initialState))))).activeSheetIndex = ((0 : Nat) : Int)
      ∧ (setActiveSheetIndex ((0 : Nat) : Int) (setActiveSheetIndex (1 : Int)
          (setColumnAlias "A::0" ("alpha")
            (toggleColumn "A::0" (setWorkbook "wb"
              [⟨"S0", ["A"], []⟩, ⟨"S1", ["B"], []⟩]
              initialState))))).selectedColumns = mkAllSelected ["A"]
      ∧ (setActiveSheetIndex ((0 : Nat) : Int) (setActiveSheetIndex (1 : Int)
          (setColumnAlias "A::0" ("alpha")
            (toggleColumn "A::0" (setWorkbook "wb"
              [⟨"S0", ["A"], []⟩, ⟨"S1", ["B"], []⟩]
              initialState))))).columnAliases = emptyRec
      ∧ (setActiveSheetIndex ((0 : Nat) : Int) (setActiveSheetIndex (1 : Int)
          (setColumnAlias "A::0" ("alpha")
            (toggleColumn "A::0" (setWorkbook "wb"
              [⟨"S0", ["A"], []⟩, ⟨"S1", ["B"], []⟩]
              initialState))))).searchTerm = ""
      ∧ ∀ (i : Nat) (hi : i < (RawSheetData.mk "S0" ["A"] []).headers.length),
          readBool (setActiveSheetIndex ((0 : Nat) : Int)
              (setActiveSheetIndex (1 : Int)
                (setColumnAlias "A::0" ("alpha")
                  (toggleColumn "A::0" (setWorkbook "wb"
                    [⟨"S0", ["A"], []⟩, ⟨"S1", ["B"], []⟩]
                    initialState))))).selectedColumns
            (buildColumnKey ((RawSheetData.mk "S0" ["A"] []).headers.get ⟨i, hi⟩) i)
            = true) :=
  ⟨by decide,
    claim_C3_sheet_switch_resets _ 0 (RawSheetData.mk "S0" ["A"] []) (by decide)⟩

/-- C5 counterexample: `setActiveSheetIndex(-1)` is not a no-op — with one
sheet loaded, `sheets.at(-1)` addresses the last sheet, so the state
changes (the active index becomes `-1`). -/
theorem claim_C5_counterexample :
    (setActiveSheetIndex (-1) (setWorkbook "wb"
        [⟨"S", ["A"], [[Cell.str "x"]]⟩] initialState)).activeSheetIndex = -1
    ∧ setActiveSheetIndex (-1) (setWorkbook "wb"
        [⟨"S", ["A"], [[Cell.str "x"]]⟩] initialState)
      ≠ setWorkbook "wb" [⟨"S", ["A"], [[Cell.str "x"]]⟩] initialState := by
  refine ⟨by decide, fun h => ?_⟩
  have hidx := congrArg AgentState.activeSheetIndex h
  revert hidx
  decide

/-- C5 amended: `setActiveSheetIndex(index)` is a no-op exactly for indices
that are out of range for `Array.prototype.at`, i.e. `index ≥ sheets.length`
or `index < -sheets.length`; negative indices from `-sheets.length` to `-1`
address sheets from the end and do change the state. -/
theorem claim_C5_out_of_range_noop (s : AgentState) (index : Int)
    (h : (s.sheets.length : Int) ≤ index ∨ index + s.sheets.length < 0) :
    setActiveSheetIndex index s = s := by
  unfold setActiveSheetIndex
  rw [jsAt_none_of_out_of_range s.sheets index h]

/-- C5 witness: index 5 with a single sheet loaded leaves the state
untouched. -/
theorem claim_C5_witness :
    (((setWorkbook "wb" [⟨"S", ["A"], []⟩] initialState).sheets.length : Int) ≤ 5
      ∨ (5 : Int) + (setWorkbook "wb" [⟨"S", ["A"], []⟩] initialState).sheets.length < 0)
    ∧ setActiveSheetIndex 5 (setWorkbook "wb" [⟨"S", ["A"], []⟩] initialState)
      = setWorkbook "wb" [⟨"S", ["A"], []⟩] initialState :=
  ⟨Or.inl (by decide),
    claim_C5_out_of_range_noop _ 5 (Or.inl (by decide))⟩

/-- C4 counterexample: a sheet with a selected column but zero rows has a
non-empty Export Row Matrix (the header row alone), so the matrix is not
empty "when the active sheet has no rows at all". -/
theorem claim_C4_counterexample :
    activeSheet (setWorkbook "wb" [⟨"S", ["A"], []⟩] initialState)
      = some (RawSheetData.mk "S" ["A"] [])
    ∧ selectedColumnIndices (setWorkbook "wb" [⟨"S", ["A"], []⟩] initialState)
      = [0]
    ∧ rowsForExport id (setWorkbook "wb" [⟨"S", ["A"], []⟩] initialState)
      = [[Cell.str "A"]] := by
  refine ⟨by decide, by decide, by decide⟩

/-- C4 amended: the Export Row Matrix is empty exactly when there is no
active sheet or no column is selected (a sheet with selected columns but
zero rows yields a header-only, non-empty matrix); whenever export is
triggered with an empty matrix it aborts before invoking the writer and
surfaces the select-a-column / ensure-data error message. -/
theorem claim_C4_empty_iff_abort (nf : String → String) (s : AgentState)
    (fn : String) :
    (rowsForExport nf s = [] ↔
      activeSheet s = none ∨ selectedColumnIndices s = [])
    ∧ (rowsForExport nf s = [] →
        handleExport nf s fn = ExportOutcome.aborted exportErrorMessage) := by
  constructor
  · cases hs : activeSheet s with
    | none => simp [rowsForExport, hs]
    | some sheet =>
        by_cases hsel : selectedColumnIndices s = []
        · simp [rowsForExport, hs, hsel]
        · simp [rowsForExport, hs, hsel]
  · intro h
    simp [handleExport, h]

/-- C4 witness: the emptiness characterization and the abort path applied
to the initial (sheetless) state. -/
theorem claim_C4_witness :
    rowsForExport id initialState = []
    ∧ handleExport id initialState "out"
        = ExportOutcome.aborted exportErrorMessage :=
  ⟨by decide, (claim_C4_empty_iff_abort id initialState "out").2 (by decide)⟩

/-- C6: for every sequence of header strings, the column keys produced by
`buildColumnKey` in positional order are pairwise distinct. -/
theorem claim_C6_column_keys_distinct (headers : List String) :
    (columnKeysOf headers).Pairwise (· ≠ ·) :=
  columnKeysOf_pairwise_ne headers

/-- C7: toggling the same column key twice restores its read selection
value (absent keys read as unselected), and no other key's read value
changes. -/
theorem claim_C7_toggle_involutive (s : AgentState) (k : String) :
    readBool (toggleColumn k (toggleColumn k s)).selectedColumns k
      = readBool s.selectedColumns k
    ∧ ∀ q, q ≠ k →
        readBool (toggleColumn k (toggleColumn k s)).selectedColumns q
          = readBool s.selectedColumns q := by
  constructor
  · simp [toggleColumn, readBool, recInsert]
  · intro q hq
    simp [toggleColumn, readBool, recInsert, hq]

/-- C7 witness: the double-toggle theorem at a concrete state and keys. -/
theorem claim_C7_witness :
    ("b" : String) ≠ "a"
    ∧ readBool (toggleColumn "a" (toggleColumn "a" initialState)).selectedColumns "b"
      = readBool initialState.selectedColumns "b" :=
  ⟨by decide, (claim_C7_toggle_involutive initialState "a").2 "b" (by decide)⟩

lemma isPrefixOf_append_self : ∀ (l r : List Char), l.isPrefixOf (l ++ r) = true := by
  intro l
  induction l with
  | nil => intro r; simp [List.isPrefixOf]
  | cons a t ih => intro r; simp [List.isPrefixOf, ih]

lemma jsEndsWith_append (f suf : String) : jsEndsWith (f ++ suf) suf = true := by
  unfold jsEndsWith List.isSuffixOf
  rw [String.data_append, List.reverse_append]
  exact isPrefixOf_append_self _ _

/-- C8 counterexample: for headers `["Name", ""]` the second column key is
`"ستون-2"` — the blank-header placeholder key carries the 1-based position
after a hyphen and has no `::1` positional suffix (it contains no `"::"`
at all), contradicting the claimed key `"<placeholder>::1"`. -/
theorem claim_C8_counterexample :
    columnKeys (setWorkbook "wb"
        [⟨"Sheet1", ["Name", ""], [[Cell.str "Ali", Cell.num 5],
          [Cell.str "Reza", Cell.num 7]]⟩] initialState)
      = ["Name::0", "ستون-2"]
    ∧ jsEndsWith "ستون-2" "::1" = false
    ∧ strContains "ستون-2" "::" = false := by
  refine ⟨by decide, by decide, by decide⟩

/-- C8 amended: for the sheet with headers `["Name", ""]` and rows
`[["Ali", 5], ["Reza", 7]]`, in the default state after loading, the column
keys are `["Name::0", "ستون-2"]` (the placeholder key uses the 1-based
position with a hyphen, without a `::` suffix), both columns read as
selected, and the export matrix is
`[["Name", "ستون 2"], ["Ali", 5], ["Reza", 7]]` with the `Column 2`
placeholder rendered in the tool's locale. -/
theorem claim_C8_concrete_scenario :
    columnKeys (setWorkbook "wb"
        [⟨"Sheet1", ["Name", ""], [[Cell.str "Ali", Cell.num 5],
          [Cell.str "Reza", Cell.num 7]]⟩] initialState)
      = ["Name::0", "ستون-2"]
    ∧ readBool (setWorkbook "wb"
        [⟨"Sheet1", ["Name", ""], [[Cell.str "Ali", Cell.num 5],
          [Cell.str "Reza", Cell.num 7]]⟩] initialState).selectedColumns
        "Name::0" = true
    ∧ readBool (setWorkbook "wb"
        [⟨"Sheet1", ["Name", ""], [[Cell.str "Ali", Cell.num 5],
          [Cell.str "Reza", Cell.num 7]]⟩] initialState).selectedColumns
        "ستون-2" = true
    ∧ rowsForExport id (setWorkbook "wb"
        [⟨"Sheet1", ["Name", ""], [[Cell.str "Ali", Cell.num 5],
          [Cell.str "Reza", Cell.num 7]]⟩] initialState)
      = [[Cell.str "Name", Cell.str "ستون 2"],
         [Cell.str "Ali", Cell.num 5],
         [Cell.str "Reza", Cell.num 7]] := by
  refine ⟨by decide, by decide, by decide, by decide⟩

/-- C9: the filename handed to the workbook writer is the user-supplied
name verbatim when it already ends with `.xlsx`, else the name with
`.xlsx` appended; either way it ends with `.xlsx`. -/
theorem claim_C9_filename_suffix (f : String) :
    downloadWorkbookFilename f =
      (if jsEndsWith f ".xlsx" then f else f ++ ".xlsx")
    ∧ jsEndsWith (downloadWorkbookFilename f) ".xlsx" = true := by
  refine ⟨rfl, ?_⟩
  unfold downloadWorkbookFilename
  by_cases h : jsEndsWith f ".xlsx" = true
  · rw [if_pos h]
    exact h
  · rw [if_neg h]
    exact jsEndsWith_append f ".xlsx"

/-- C10: with an active sheet and at least one selected column, the export
matrix has length `1 + number of visible rows` and is never empty — even
with zero (visible) rows export proceeds to the writer with a header-only
matrix instead of surfacing the empty-export error. -/
theorem claim_C10_header_only_export (nf : String → String) (s : AgentState)
    (sheet : RawSheetData) (fn : String) (h1 : activeSheet s = some sheet)
    (h2 : selectedColumnIndices s ≠ []) :
    (rowsForExport nf s).length = 1 + (visibleRows nf s).length
    ∧ rowsForExport nf s ≠ []
    ∧ handleExport nf s fn
        = ExportOutcome.written (rowsForExport nf s) (downloadWorkbookFilename fn)
    ∧ (visibleRows nf s = [] →
        rowsForExport nf s
          = [(selectedColumnIndices s).map fun idx =>
              Cell.str (headerEntry s idx)]) := by
  have hmain : rowsForExport nf s =
      ((selectedColumnIndices s).map fun idx => Cell.str (headerEntry s idx)) ::
        ((visibleRows nf s).map fun row =>
          (selectedColumnIndices s).map (exportCell row)) := by
    simp only [rowsForExport, h1]
    rw [if_neg h2]
  have hne : rowsForExport nf s ≠ [] := by
    rw [hmain]
    exact List.cons_ne_nil _ _
  refine ⟨?_, hne, ?_, ?_⟩
  · rw [hmain]
    simp only [List.length_cons, List.length_map]
    omega
  · simp [handleExport, hne]
  · intro hv
    rw [hmain, hv]
    simp

/-- C10 witness: exporting a sheet with a selected column and zero rows
writes the header-only matrix. -/
theorem claim_C10_witness :
    activeSheet (setWorkbook "wb" [⟨"S", ["A"], []⟩] initialState)
      = some (RawSheetData.mk "S" ["A"] [])
    ∧ selectedColumnIndices (setWorkbook "wb" [⟨"S", ["A"], []⟩] initialState) ≠ []
    ∧ ((rowsForExport id (setWorkbook "wb" [⟨"S", ["A"], []⟩] initialState)).length
        = 1 + (visibleRows id (setWorkbook "wb" [⟨"S", ["A"], []⟩] initialState)).length
      ∧ rowsForExport id (setWorkbook "wb" [⟨"S", ["A"], []⟩] initialState) ≠ []
      ∧ handleExport id (setWorkbook "wb" [⟨"S", ["A"], []⟩] initialState) "out"
          = ExportOutcome.written
            (rowsForExport id (setWorkbook "wb" [⟨"S", ["A"], []⟩] initialState))
            (downloadWorkbookFilename "out")
      ∧ (visibleRows id (setWorkbook "wb" [⟨"S", ["A"], []⟩] initialState) = [] →
          rowsForExport id (setWorkbook "wb" [⟨"S", ["A"], []⟩] initialState)
            = [(selectedColumnIndices (setWorkbook "wb" [⟨"S", ["A"], []⟩]
                initialState)).map fun idx =>
                  Cell.str (headerEntry (setWorkbook "wb" [⟨"S", ["A"], []⟩]
                    initialState) idx)])) :=
  ⟨by decide, by decide,
    claim_C10_header_only_export id
      (setWorkbook "wb" [⟨"S", ["A"], []⟩] initialState)
      (RawSheetData.mk "S" ["A"] []) "out" (by decide) (by decide)⟩
